import Mathlib

/-!
Verification development for the KazTron schema-driven configuration object
model (`kaztron/config/`): the Field catalog (`fields/fields.py`), the
Model/List/Dict node machinery (`object.py`) and the file-backed root
(`config.py`).

The Python code is shallowly embedded:

* Python floats are modelled by `PyFloat`: exact rationals extended with the
  IEEE-754 special values `inf`, `ninf` and `nan`, with IEEE comparison
  semantics (`nan` compares unequal to everything, itself included).
* Python runtime values are modelled by `Value`.  ISO-8601 timestamp text (as
  produced by `datetime.isoformat` and consumed by `datetime.fromisoformat`)
  is modelled by the dedicated constructor `visostr`, carrying the wall-clock
  time and the explicit UTC offset of the text; `vstr` models all other text.
  A `datetime` object is `vdatetime wall tz` with `tz = none` for a naive
  datetime.
* Python dicts are modelled as association lists.  Since Python dict keys are
  unique, deletion removes every binding of the key and lookups return the
  first binding; this is observationally equivalent for the operations used.
* Exceptions are modelled with `Except ConfigError`.
-/

namespace KazCfg

/-- Model of a Python float: exact rationals plus IEEE special values. -/
inductive PyFloat where
  | finite (q : ℚ)
  | inf
  | ninf
  | nan
deriving DecidableEq

/-- IEEE-754 equality (`==` on Python floats): `nan` is unequal to everything,
including itself. -/
def feq : PyFloat → PyFloat → Bool
  | .finite a, .finite b => a == b
  | .inf, .inf => true
  | .ninf, .ninf => true
  | _, _ => false

/-- IEEE-754 `<` on Python floats: any comparison involving `nan` is false. -/
def flt : PyFloat → PyFloat → Bool
  | .finite a, .finite b => a < b
  | .finite _, .inf => true
  | .ninf, .finite _ => true
  | .ninf, .inf => true
  | _, _ => false

/-- IEEE-754 `<=` on Python floats: any comparison involving `nan` is false. -/
def fle (a b : PyFloat) : Bool := flt a b || feq a b

/-- IEEE-754 `>` on Python floats. -/
def fgt (a b : PyFloat) : Bool := flt b a

/-- Python `max(x, y)`: returns `y` exactly when `y > x` (so with a `nan`
argument in second position the first argument is returned). -/
def pymax (x y : PyFloat) : PyFloat := if fgt y x then y else x

/-- Python `min(x, y)`: returns `y` exactly when `y < x`. -/
def pymin (x y : PyFloat) : PyFloat := if flt y x then y else x

/-- Model of a Python runtime value in the configuration system. -/
inductive Value where
  | vstr (s : String)
  | vint (n : ℤ)
  | vfloat (f : PyFloat)
  | vbool (b : Bool)
  | vnull
  | vlist (xs : List Value)
  | vdict (xs : List (String × Value))
  | vdatetime (wall : ℚ) (tz : Option ℤ)
  | visostr (wall : ℚ) (tz : Option ℤ)

/-- The error taxonomy: the `kaztron.config.error` exception classes plus the
Python builtin exceptions raised by the field converters. -/
inductive ConfigError where
  | keyError
  | nameError
  | converterError
  | readOnlyError
  | typeError
  | valueError
  | indexError
deriving DecidableEq

/-- Python `str.startswith`. -/
def pyStartsWith (s p : String) : Bool := p.data.isPrefixOf s.data

/-- Association-list lookup: the (unique) binding of `k`, as `d[k]` / `k in d`. -/
def alGet {α : Type} (xs : List (String × α)) (k : String) : Option α :=
  match xs with
  | [] => none
  | (k', v) :: rest => if k' = k then some v else alGet rest k

/-- Python `k in d`. -/
def alHas {α : Type} (xs : List (String × α)) (k : String) : Bool :=
  (alGet xs k).isSome

/-- Python `d[k] = v`: replace the binding of `k` in place, else append. -/
def alSet {α : Type} (xs : List (String × α)) (k : String) (v : α) :
    List (String × α) :=
  match xs with
  | [] => [(k, v)]
  | (k', v') :: rest =>
      if k' = k then (k, v) :: rest else (k', v') :: alSet rest k v

/-- Python `del d[k]` on a dict with unique keys: remove the binding of `k`
(modelled as removing every binding of `k`). -/
def alDel {α : Type} (xs : List (String × α)) (k : String) :
    List (String × α) :=
  xs.filter (fun p => p.1 ≠ k)

/-- Effectful map over a list, modelling a Python list comprehension whose
body may raise: the first exception aborts the whole comprehension. -/
def exceptMap {α β : Type} (f : α → Except ConfigError β) :
    List α → Except ConfigError (List β)
  | [] => .ok []
  | x :: xs => do
      let y ← f x
      let ys ← exceptMap f xs
      .ok (y :: ys)

/-- Effectful map over dict entries, modelling a Python dict comprehension
`{k: f(v) for k, v in d.items()}`. -/
def exceptMapVals {α β : Type} (f : α → Except ConfigError β) :
    List (String × α) → Except ConfigError (List (String × β))
  | [] => .ok []
  | (k, x) :: xs => do
      let y ← f x
      let ys ← exceptMapVals f xs
      .ok ((k, y) :: ys)

/-- Python list `insert`, which clamps the index into range. -/
def pyInsert {α : Type} (xs : List α) (i : ℕ) (x : α) : List α :=
  xs.insertIdx (min i xs.length) x

/-- Truncation towards zero, as performed by Python `int(float)`. -/
def pytrunc (q : ℚ) : ℤ := if 0 ≤ q then Rat.floor q else Rat.ceil q

/-- Python `int(str)`.  The full `int` literal grammar (underscores, unicode
digits) is approximated by decimal parsing of the trimmed text. -/
def pyIntOfString (s : String) : Except ConfigError ℤ :=
  match s.trim.toInt? with
  | some n => .ok n
  | none => .error .valueError

/-- Python `float(str)`.  Special-value spellings and integer literals are
modelled; fractional literals are not needed by this development. -/
def pyFloatOfString (s : String) : Except ConfigError PyFloat :=
  let t := s.trim.toLower
  if t = "inf" || t = "infinity" || t = "+inf" || t = "+infinity" then .ok .inf
  else if t = "-inf" || t = "-infinity" then .ok .ninf
  else if t = "nan" || t = "+nan" || t = "-nan" then .ok .nan
  else match t.toInt? with
       | some n => .ok (.finite n)
       | none => .error .valueError

/-- Python `int(value)`: identity on ints, bools coerce to 0/1, floats
truncate towards zero (specials raise), strings parse, anything else is a
`TypeError`. -/
def pyInt : Value → Except ConfigError ℤ
  | .vint n => .ok n
  | .vbool b => .ok (if b then 1 else 0)
  | .vfloat (.finite q) => .ok (pytrunc q)
  | .vfloat _ => .error .valueError
  | .vstr s => pyIntOfString s
  | _ => .error .typeError

/-- Python `float(value)`. -/
def pyFloatOf : Value → Except ConfigError PyFloat
  | .vfloat f => .ok f
  | .vint n => .ok (.finite n)
  | .vbool b => .ok (.finite (if b then 1 else 0))
  | .vstr s => pyFloatOfString s
  | _ => .error .typeError

/-- Python truthiness, `bool(value)`. -/
def pyTruthy : Value → Bool
  | .vstr s => !s.isEmpty
  | .visostr _ _ => true
  | .vint n => n != 0
  | .vfloat (.finite q) => q != 0
  | .vfloat _ => true
  | .vbool b => b
  | .vnull => false
  | .vlist xs => !xs.isEmpty
  | .vdict xs => !xs.isEmpty
  | .vdatetime _ _ => true

/-- The `isinstance(value, typing.get_args(ConfigPrimitive))` check, where
`ConfigPrimitive = Union[str, int, float, list, dict | Munch]`.  A Python
`bool` is an `int` and therefore passes; `None` and `datetime` objects do
not. -/
def isPrimitive : Value → Bool
  | .vstr _ => true
  | .visostr _ _ => true
  | .vint _ => true
  | .vbool _ => true
  | .vfloat _ => true
  | .vlist _ => true
  | .vdict _ => true
  | .vnull => false
  | .vdatetime _ _ => false

/-- UTC offset (in seconds) that `datetime.timestamp()` assumes for a naive
datetime.  It is the platform-local offset; the model fixes it to a constant
(naive datetimes are outside every representable value set used below). -/
def localUtcOffset : ℚ := 0

/-- The Field catalog of `kaztron/config/fields/fields.py`: one constructor
per concrete Field subtype, carrying the declared validation
parameters.  `ConfigModelField` is embedded separately (see
`configModelFieldSerialize` below), since its conversion involves the Model
machinery rather than pure value conversion. -/
inductive FieldSpec where
  | prim
  | fstr (minlen : ℕ) (len : Option ℕ) (validation : Option (String → Bool))
  | fint (min max : Option ℤ)
  | fcint (min max : Option ℤ)
  | ffloat (min max : Option PyFloat) (allow_special : Bool)
  | fcfloat (min max : Option PyFloat) (allow_special : Bool)
  | fbool
  | ftimestamp
  | fdatetime
  | flist (inner : FieldSpec) (min_len : ℕ) (max_len : Option ℕ) (lazy : Bool)
  | fdict (inner : FieldSpec) (lazy : Bool)

/-- Embedding of `StringField._is_valid_length`. -/
def stringValidLength (minlen : ℕ) (len : Option ℕ) (s : String) : Bool :=
  decide (minlen ≤ s.length) && (match len with
    | none => true
    | some m => decide (s.length ≤ m))

/-- Embedding of `StringField.convert` and `StringField.serialize` (their
bodies are identical): strict type check, then
length window, then the optional validation pattern. -/
def stringFieldCheck (minlen : ℕ) (len : Option ℕ)
    (validation : Option (String → Bool)) (v : Value) :
    Except ConfigError Value :=
  match v with
  | .vstr s =>
      if !stringValidLength minlen len s then .error .valueError
      else match validation with
        | some p => if !p s then .error .valueError else .ok (.vstr s)
        | none => .ok (.vstr s)
  | _ => .error .typeError

/-- Embedding of `IntegerField._is_valid_range`. -/
def intValidRange (mn mx : Option ℤ) (n : ℤ) : Bool :=
  (match mn with | none => true | some a => decide (a ≤ n)) &&
  (match mx with | none => true | some b => decide (n ≤ b))

/-- Clamping performed by `ConstrainedIntegerField`: `max(min, _)` then
`min(max, _)`. -/
def intClamp (mn mx : Option ℤ) (n : ℤ) : ℤ :=
  let n1 := match mn with | none => n | some a => max a n
  match mx with | none => n1 | some b => min b n1

/-- Embedding of `FloatField.is_allowed_special`.  Note the source compares
with `==`:
`value == self.NAN` is always false under IEEE semantics, so a NaN input is
always "allowed" by this check. -/
def is_allowed_special (allow_special : Bool) (f : PyFloat) : Bool :=
  allow_special || !(feq f .inf || feq f .ninf || feq f .nan)

/-- Embedding of `FloatField._is_valid_range` (IEEE comparisons, so a NaN
fails any bound
that is present). -/
def floatValidRange (mn mx : Option PyFloat) (f : PyFloat) : Bool :=
  (match mn with | none => true | some a => fle a f) &&
  (match mx with | none => true | some b => fle f b)

/-- Clamping performed by `ConstrainedFloatField`: `max(self.min, _)`, then
`min(self.max, _)`
with Python `max`/`min` argument order. -/
def floatClamp (mn mx : Option PyFloat) (f : PyFloat) : PyFloat :=
  let f1 := match mn with | none => f | some a => pymax a f
  match mx with | none => f1 | some b => pymin b f1

/-- Embedding of `BooleanField.convert`: native bools pass through, a fixed
vocabulary of
truthy/falsy words is recognised case-insensitively, any other string raises,
and any other value coerces by truthiness. -/
def booleanFieldConvert (v : Value) : Except ConfigError Value :=
  match v with
  | .vbool b => .ok (.vbool b)
  | .vstr s =>
      let t := s.toLower
      if t = "0" || t = "off" || t = "no" || t = "disabled" || t = "false" then
        .ok (.vbool false)
      else if t = "1" || t = "on" || t = "yes" || t = "enabled" || t = "true" then
        .ok (.vbool true)
      else .error .valueError
  | _ => .ok (.vbool (pyTruthy v))

/-- Embedding of `ListField._validate_length` (the `None` max bound
short-circuits). -/
def listValidLength (min_len : ℕ) (max_len : Option ℕ) (n : ℕ) : Bool :=
  match max_len with
  | none => decide (min_len ≤ n)
  | some m => decide (min_len ≤ n) && decide (n ≤ m)

/-- Embedding of `Field.convert` for every catalog field type, from
`kaztron/config/fields/fields.py`. -/
def FieldSpec.convert : FieldSpec → Value → Except ConfigError Value
  | .prim, v => .ok v
  | .fstr minlen len validation, v => stringFieldCheck minlen len validation v
  | .fint mn mx, v => do
      let n ← pyInt v
      if !intValidRange mn mx n then .error .valueError else .ok (.vint n)
  | .fcint mn mx, v => do
      let n ← pyInt v
      .ok (.vint (intClamp mn mx n))
  | .ffloat mn mx sp, v => do
      let f ← pyFloatOf v
      if !is_allowed_special sp f then .error .valueError
      else if !floatValidRange mn mx f then .error .valueError
      else .ok (.vfloat f)
  | .fcfloat mn mx sp, v => do
      let f ← pyFloatOf v
      if !is_allowed_special sp f then .error .valueError
      else .ok (.vfloat (floatClamp mn mx f))
  | .fbool, v => booleanFieldConvert v
  | .ftimestamp, v =>
      match v with
      | .vint n => .ok (.vdatetime n (some 0))
      | .vbool b => .ok (.vdatetime (if b then 1 else 0) (some 0))
      | .vfloat (.finite q) => .ok (.vdatetime q (some 0))
      | .vfloat _ => .error .valueError
      | _ => .error .typeError
  | .fdatetime, v =>
      match v with
      | .visostr w tz =>
          match tz with
          | some o => .ok (.vdatetime w (some o))
          | none => .ok (.vdatetime w (some 0))
      | .vstr _ => .error .valueError
      | _ => .error .typeError
  | .flist inner min_len max_len _, v =>
      match v with
      | .vlist xs =>
          if !listValidLength min_len max_len xs.length then .error .valueError
          else do
            let ys ← exceptMap (FieldSpec.convert inner) xs
            .ok (.vlist ys)
      | _ => .error .typeError
  | .fdict inner _, v =>
      match v with
      | .vdict xs => do
          let ys ← exceptMapVals (FieldSpec.convert inner) xs
          .ok (.vdict ys)
      | _ => .error .typeError

/-- Embedding of `Field.serialize` for every catalog field type, from
`kaztron/config/fields/fields.py`. -/
def FieldSpec.serialize : FieldSpec → Value → Except ConfigError Value
  | .prim, v => if !isPrimitive v then .error .typeError else .ok v
  | .fstr minlen len validation, v => stringFieldCheck minlen len validation v
  | .fint mn mx, v => do
      let n ← pyInt v
      if !intValidRange mn mx n then .error .valueError else .ok (.vint n)
  | .fcint mn mx, v => do
      let n ← pyInt v
      .ok (.vint (intClamp mn mx n))
  | .ffloat mn mx sp, v => do
      let f ← pyFloatOf v
      if !is_allowed_special sp f then .error .valueError
      else if !floatValidRange mn mx f then .error .valueError
      else .ok (.vfloat f)
  | .fcfloat mn mx sp, v => do
      let f ← pyFloatOf v
      if !is_allowed_special sp f then .error .valueError
      else .ok (.vfloat (floatClamp mn mx f))
  | .fbool, v => booleanFieldConvert v
  | .ftimestamp, v =>
      match v with
      | .vdatetime w (some o) => .ok (.vfloat (.finite (w - o)))
      | .vdatetime w none => .ok (.vfloat (.finite (w - localUtcOffset)))
      | _ => .error .typeError
  | .fdatetime, v =>
      match v with
      | .vdatetime w tz =>
          match tz with
          | some o => .ok (.visostr w (some o))
          | none => .ok (.visostr w (some 0))
      | _ => .error .typeError
  | .flist inner min_len max_len _, v =>
      match v with
      | .vlist xs =>
          if !listValidLength min_len max_len xs.length then .error .valueError
          else do
            let ys ← exceptMap (FieldSpec.serialize inner) xs
            .ok (.vlist ys)
      | _ => .error .typeError
  | .fdict inner _, v =>
      match v with
      | .vdict xs => do
          let ys ← exceptMapVals (FieldSpec.serialize inner) xs
          .ok (.vdict ys)
      | _ => .error .typeError

/-- State of a `KaztronConfig` instance (`config.py`): the raw tree, the
dirty flag and the read-only flag. -/
structure KaztronConfig where
  data : List (String × Value)
  is_dirty : Bool
  read_only : Bool

/-- Embedding of `KaztronConfig.notify` (`config.py` lines 313 to 317): the
method body is empty, so the state is returned unchanged.  In particular the
dirty flag is NOT set. -/
def KaztronConfig.notify (c : KaztronConfig) : KaztronConfig := c

/-- Embedding of `KaztronConfig.write`: raises when read-only; otherwise
performs file output and clears the dirty flag exactly when the dirty flag is
set.  The boolean in the result records whether the file strategy was asked
to write. -/
def KaztronConfig.write (c : KaztronConfig) :
    Except ConfigError (KaztronConfig × Bool) :=
  if c.read_only then .error .readOnlyError
  else if c.is_dirty then .ok ({ c with is_dirty := false }, true)
  else .ok (c, false)

/-- Embedding of `ConfigNodeMixin.cfg_notify_update` bubbling: a node at
depth `n + 1` delegates to its parent, and the root (depth `0`,
`ConfigRoot.cfg_notify_update`) calls `KaztronConfig.notify`. -/
def cfg_notify_update : ℕ → KaztronConfig → KaztronConfig
  | 0, cfg => KaztronConfig.notify cfg
  | n + 1, cfg => cfg_notify_update n cfg

/-- Embedding of `ConfigModelMeta._is_reserved_name` and of the reserved-name
check in `ConfigModel.get`. -/
def isReserved (k : String) : Bool :=
  pyStartsWith k "_" || pyStartsWith k "cfg_"

/-- A resolved schema field: the data of a `Field` instance that matters to
the Model machinery (its key name in the raw data, its conversion behaviour,
its default and its required flag). -/
structure FieldDef where
  name : String
  kind : FieldSpec
  default : Value
  required : Bool

/-- The schema of a `ConfigModel` subclass: its `__config_fields__` table
keyed by attribute name, and the `strict_keys` flag of the
`ConfigModelField` describing the model. -/
structure ModelSchema where
  fields : List (String × FieldDef)
  strict_keys : Bool

/-- Embedding of `ConfigModel._get_default_field` combined with the
`field.name = key` assignment in `cfg_get_field`: a permissive
`PrimitiveField` with `required=True`. -/
def defaultField (k : String) : FieldDef :=
  { name := k, kind := .prim, default := .vnull, required := true }

/-- Embedding of `ConfigModel.cfg_get_field`. -/
def cfg_get_field (schema : ModelSchema) (k : String) : FieldDef :=
  match alGet schema.fields k with
  | some fd => fd
  | none => defaultField k

/-- State of a `ConfigModel` instance: the raw data slice and the conversion
cache. -/
structure ModelState where
  data : List (String × Value)
  converted : List (String × Value)

/-- State of a `ConfigList` node: the raw list, the parallel converted-value
list and the parallel per-index validity map. -/
structure ConfigListState where
  serialized_data : List Value
  converted : List Value
  convert_map : List Bool

/-- Well-formedness of a `ConfigList` state: the three parallel lists have
equal length.  Every constructor and operation of the source maintains it. -/
def ConfigListState.WF (st : ConfigListState) : Prop :=
  st.converted.length = st.serialized_data.length ∧
  st.convert_map.length = st.serialized_data.length

/-- Embedding of `ConfigList.cfg_set_data` together with the `clear_cache`
call it ends with: validate the length bounds (note that a falsy `max_len`,
that is `None` or `0`, disables the upper check), then rebuild the caches
(eagerly converting when the field is not lazy). -/
def list_cfg_set_data (inner : FieldSpec) (min_len : ℕ) (max_len : Option ℕ)
    (lazy : Bool) (data : List Value) : Except ConfigError ConfigListState :=
  let max_ok := match max_len with
    | none => true
    | some m => if m = 0 then true else decide (data.length ≤ m)
  let min_ok := decide (min_len ≤ data.length)
  if !(max_ok && min_ok) then .error .indexError
  else if lazy then
    .ok { serialized_data := data,
          converted := List.replicate data.length .vnull,
          convert_map := List.replicate data.length false }
  else
    match FieldSpec.convert (.flist inner min_len max_len lazy) (.vlist data) with
    | .error e => .error e
    | .ok (.vlist ys) =>
        .ok { serialized_data := data, converted := ys,
              convert_map := List.replicate data.length true }
    | .ok _ => .error .typeError

/-- Embedding of `ConfigNodeMixin._convert_child_node` for the catalog field
types: a `DictField` or `ListField` child creates a node wrapping the raw
container (validating it), any other field applies its `convert`.  Nodes are
modelled by the raw container they wrap.  The runtime-attribute refresh
mutates only the shared field descriptor and is modelled separately (see
`cfg_get_runtime_attributes`). -/
def convertChildNode (fs : FieldSpec) (raw : Value) : Except ConfigError Value :=
  match fs with
  | .fdict inner lazyf =>
      (match raw with
       | .vdict xs =>
           if lazyf then .ok (.vdict xs)
           else (match exceptMapVals (FieldSpec.convert inner) xs with
                 | .error e => .error e
                 | .ok _ => .ok (.vdict xs))
       | _ => .error .valueError)
  | .flist inner mn mx lazyf =>
      (match raw with
       | .vlist xs =>
           (match list_cfg_set_data inner mn mx lazyf xs with
            | .error e => .error e
            | .ok _ => .ok (.vlist xs))
       | _ => .error .valueError)
  | _ => FieldSpec.convert fs raw

/-- The cache-miss path of `ConfigModel.get`: reserved-name check, raw
lookup by the declared field name with default substitution, strict-keys
check, conversion (wrapping converter failures), caching.  The `cfg`
parameter is the root back-reference of the node, used by the source only
for error-message context. -/
def modelGetUncached (schema : ModelSchema) (cfg : KaztronConfig)
    (s : ModelState) (k : String) : Except ConfigError (Value × ModelState) :=
  let fd := cfg_get_field schema k
  if isReserved k then .error .nameError
  else
    match alGet s.data fd.name with
    | none =>
        if fd.required then .error .keyError
        else
          match convertChildNode fd.kind fd.default with
          | .error _ => .error .converterError
          | .ok cv => .ok (cv, { s with converted := alSet s.converted k cv })
    | some raw =>
        if schema.strict_keys && !alHas schema.fields k then .error .keyError
        else
          match convertChildNode fd.kind raw with
          | .error _ => .error .converterError
          | .ok cv => .ok (cv, { s with converted := alSet s.converted k cv })

/-- Embedding of `ConfigModel.get`: a cached converted value is returned
directly (after a metadata re-attach, which does not touch any state modelled
here); otherwise the cache-miss path runs. -/
def modelGet (schema : ModelSchema) (cfg : KaztronConfig) (s : ModelState)
    (k : String) : Except ConfigError (Value × ModelState) :=
  match alGet s.converted k with
  | some node => .ok (node, s)
  | none => modelGetUncached schema cfg s k

/-- Embedding of `ConfigModel.set`: read-only check (resolved from the root,
which sits `depth` levels up), strict-keys check, serialization, shallow
primitive type check, raw write at the key, cache-entry deletion, child
metadata update (not modelled: it does not touch the raw tree), and the
dirty-notification bubble to the root. -/
def modelSet (schema : ModelSchema) (depth : ℕ) (cfg : KaztronConfig)
    (s : ModelState) (k : String) (v : Value) :
    Except ConfigError (ModelState × KaztronConfig) :=
  if cfg.read_only then .error .readOnlyError
  else
    let fd := cfg_get_field schema k
    if schema.strict_keys && !alHas schema.fields k then .error .keyError
    else
      match FieldSpec.serialize fd.kind v with
      | .error e => .error e
      | .ok ser =>
          if !isPrimitive ser then .error .converterError
          else
            .ok ({ data := alSet s.data k ser, converted := alDel s.converted k },
                 cfg_notify_update depth cfg)

/-- The cache-miss path of `ConfigList.__getitem__`: convert the raw slot,
cache the result and mark the slot valid.  Out-of-range defaults never fire
for well-formed states reached through the public operations. -/
def listGetitemUncached (inner : FieldSpec) (st : ConfigListState) (i : ℕ) :
    Except ConfigError (Value × ConfigListState) :=
  match convertChildNode inner (st.serialized_data.getD i .vnull) with
  | .error e => .error e
  | .ok item =>
      .ok (item, { st with converted := st.converted.set i item,
                           convert_map := st.convert_map.set i true })

/-- Embedding of `ConfigList.__getitem__`: a slot marked valid in the convert
map is served from the converted cache, otherwise the raw slot is converted
and cached. -/
def listGetitem (inner : FieldSpec) (st : ConfigListState) (i : ℕ) :
    Except ConfigError (Value × ConfigListState) :=
  if i < st.convert_map.length then
    if st.convert_map.getD i false then .ok (st.converted.getD i .vnull, st)
    else listGetitemUncached inner st i
  else .error .indexError

/-- Embedding of `ConfigList.__setitem__`: serialize into the raw slot, mark
the convert-map slot invalid (the converted cache is deliberately NOT
updated), and notify the root.  There is no read-only check. -/
def listSetitem (inner : FieldSpec) (depth : ℕ) (cfg : KaztronConfig)
    (st : ConfigListState) (i : ℕ) (v : Value) :
    Except ConfigError (ConfigListState × KaztronConfig) :=
  match FieldSpec.serialize inner v with
  | .error e => .error e
  | .ok ser =>
      if i < st.serialized_data.length then
        .ok ({ st with serialized_data := st.serialized_data.set i ser,
                       convert_map := st.convert_map.set i false },
             cfg_notify_update depth cfg)
      else .error .indexError

/-- Embedding of `ConfigList.__delitem__`: refuse when a truthy `min_len`
would be violated, else delete the slot from all three parallel lists and
notify.  There is no read-only check. -/
def listDelitem (min_len : ℕ) (depth : ℕ) (cfg : KaztronConfig)
    (st : ConfigListState) (i : ℕ) :
    Except ConfigError (ConfigListState × KaztronConfig) :=
  if min_len != 0 && decide (st.serialized_data.length ≤ min_len) then
    .error .indexError
  else if i < st.serialized_data.length then
    .ok ({ serialized_data := st.serialized_data.eraseIdx i,
           converted := st.converted.eraseIdx i,
           convert_map := st.convert_map.eraseIdx i },
         cfg_notify_update depth cfg)
  else .error .indexError

/-- Embedding of `ConfigList.insert`: insert a `None` placeholder into all
three parallel lists, then assign through `__setitem__` (which serializes and
notifies), then notify again.  Note that NO length-bound check is performed
here.  There is no read-only check. -/
def listInsert (inner : FieldSpec) (depth : ℕ) (cfg : KaztronConfig)
    (st : ConfigListState) (i : ℕ) (v : Value) :
    Except ConfigError (ConfigListState × KaztronConfig) :=
  let st1 : ConfigListState :=
    { serialized_data := pyInsert st.serialized_data i .vnull,
      converted := pyInsert st.converted i .vnull,
      convert_map := pyInsert st.convert_map i false }
  match listSetitem inner depth cfg st1 i v with
  | .error e => .error e
  | .ok (st2, cfg1) => .ok (st2, cfg_notify_update depth cfg1)

/-- State of a `ConfigDict` node: the raw mapping and the sparse converted
cache. -/
structure ConfigDictState where
  serialized_data : List (String × Value)
  converted : List (String × Value)

/-- The cache-miss path of `ConfigDict.__getitem__`: convert the raw entry
(the per-key copy of the inner field touches metadata only) and cache it. -/
def dictGetitemUncached (inner : FieldSpec) (st : ConfigDictState) (k : String) :
    Except ConfigError (Value × ConfigDictState) :=
  match alGet st.serialized_data k with
  | none => .error .keyError
  | some raw =>
      match convertChildNode inner raw with
      | .error e => .error e
      | .ok item => .ok (item, { st with converted := alSet st.converted k item })

/-- Embedding of `ConfigDict.__getitem__`. -/
def dictGetitem (inner : FieldSpec) (st : ConfigDictState) (k : String) :
    Except ConfigError (Value × ConfigDictState) :=
  match alGet st.converted k with
  | some item => .ok (item, st)
  | none => dictGetitemUncached inner st k

/-- Embedding of `ConfigDict.__setitem__`: serialize into the raw mapping,
delete any cached conversion (deliberately not replacing it), notify.  There
is no read-only check. -/
def dictSetitem (inner : FieldSpec) (depth : ℕ) (cfg : KaztronConfig)
    (st : ConfigDictState) (k : String) (v : Value) :
    Except ConfigError (ConfigDictState × KaztronConfig) :=
  match FieldSpec.serialize inner v with
  | .error e => .error e
  | .ok ser =>
      .ok ({ serialized_data := alSet st.serialized_data k ser,
             converted := alDel st.converted k },
           cfg_notify_update depth cfg)

/-- Embedding of `ConfigDict.__delitem__`.  There is no read-only check. -/
def dictDelitem (depth : ℕ) (cfg : KaztronConfig) (st : ConfigDictState)
    (k : String) : Except ConfigError (ConfigDictState × KaztronConfig) :=
  if alHas st.serialized_data k then
    .ok ({ serialized_data := alDel st.serialized_data k,
           converted := alDel st.converted k },
         cfg_notify_update depth cfg)
  else .error .keyError

/-- A Field instance as it appears in a class body before the metaclass
processes it: its `name` may still be unset. -/
structure DeclaredField where
  name : Option String
  kind : FieldSpec
  default : Value
  required : Bool

/-- The `value.name = attr` resolution performed by the metaclass. -/
def resolveFieldName (attr : String) (f : DeclaredField) : FieldDef :=
  { name := f.name.getD attr, kind := f.kind, default := f.default,
    required := f.required }

/-- Embedding of the field-collection loop of `ConfigModelMeta.__new__`:
starting from the inherited `__config_fields__`, walk the declared members in
order; a member whose explicit name, or whose attribute name when no explicit
name is given, is reserved is silently skipped (the loop `continue`s — no
error is raised); all others are installed under their attribute name. -/
def collectFields (inherited : List (String × FieldDef))
    (attrs : List (String × DeclaredField)) : List (String × FieldDef) :=
  attrs.foldl (fun acc p =>
    let name_invalid := match p.2.name with
      | some n => isReserved n
      | none => false
    let attr_name_invalid := p.2.name.isNone && isReserved p.1
    if name_invalid || attr_name_invalid then acc
    else alSet acc p.1 (resolveFieldName p.1 p.2)) inherited

/-- Tags for the Field classes relevant to runtime-attribute resolution,
with a representative inheritance chain from `fields.py`:
`IntegerField <: PrimitiveField <: Field`. -/
inductive FieldTag where
  | fieldBase
  | primitiveField
  | integerField
deriving DecidableEq

/-- Python `__mro__` of each tagged class, most-derived class first (the
trailing `ABC`/`object` entries can never carry attribute tables and are
omitted). -/
def FieldTag.mro : FieldTag → List FieldTag
  | .fieldBase => [.fieldBase]
  | .primitiveField => [.primitiveField, .fieldBase]
  | .integerField => [.integerField, .primitiveField, .fieldBase]

/-- The `_field_runtime_attributes` table of one node: an optional attribute
dict per Field class. -/
def NodeTables (α : Type) : Type := FieldTag → Option (List (String × α))

/-- Python `base.update(upd)`, observed through lookups: a key present in
`upd` wins over one in `base`. -/
def dictUpdate {α : Type} (base upd : List (String × α)) : List (String × α) :=
  upd ++ base

/-- Embedding of `ConfigNodeMixin.cfg_set_runtime_attributes`: replace the
attribute table this node holds for the given Field class. -/
def cfg_set_runtime_attributes {α : Type} (node : NodeTables α) (t : FieldTag)
    (attrs : List (String × α)) : NodeTables α :=
  fun u => if u = t then some attrs else node u

/-- Embedding of `ConfigNodeMixin.cfg_get_runtime_attributes` over the node
chain `[self, parent, …, root]`: first resolve the parent chain (the
recursive call; an absent parent contributes the empty dict), then fold over
the `__mro__` of the requested Field class — most-derived class first — each
present table updating (and therefore overriding) the accumulator. -/
def cfg_get_runtime_attributes {α : Type} :
    List (NodeTables α) → FieldTag → List (String × α)
  | [], _ => []
  | node :: parents, t =>
      (FieldTag.mro t).foldl
        (fun acc mt =>
          match node mt with
          | some tbl => dictUpdate acc tbl
          | none => acc)
        (cfg_get_runtime_attributes parents t)

/-- First defined option in a list, used to characterise lookup precedence. -/
def firstSome {α : Type} : List (Option α) → Option α
  | [] => none
  | x :: xs =>
      match x with
      | some v => some v
      | none => firstSome xs

/-- Where a single node resolves an attribute for a Field class: the winning
entry comes from the LAST class in the `__mro__` whose table defines the
attribute (because later `dict.update` calls override earlier ones). -/
def nodeRuntimeLookup {α : Type} (node : NodeTables α) (t : FieldTag)
    (a : String) : Option α :=
  firstSome ((FieldTag.mro t).reverse.map
    (fun mt => (node mt).bind (fun tbl => alGet tbl a)))

/-- Embedding of `ConfigModelField.convert` for a lazily-declared model
field: a fresh model is created and bound to the raw dict (`cfg_set_data`
stores the reference; `clear_cache` does no eager work for a lazy field). -/
def configModelFieldConvert (raw : Value) : Except ConfigError ModelState :=
  match raw with
  | .vdict xs => .ok { data := xs, converted := [] }
  | _ => .error .typeError

/-- The dict comprehension `{key: value.get(key) for key in value.keys()}`
of `ConfigModelField.serialize`, threading the conversion-cache updates that
each `get` performs. -/
def serializeModelKeys (schema : ModelSchema) (cfg : KaztronConfig) :
    ModelState → List String → Except ConfigError (List (String × Value))
  | _, [] => .ok []
  | s, k :: ks =>
      match modelGet schema cfg s k with
      | .error e => .error e
      | .ok (v, s') =>
          match serializeModelKeys schema cfg s' ks with
          | .error e => .error e
          | .ok rest => .ok ((k, v) :: rest)

/-- Embedding of `ConfigModelField.serialize`: a dict mapping every raw key
of the model to `value.get(key)` — note this emits CONVERTED member values,
not the raw ones. -/
def configModelFieldSerialize (schema : ModelSchema) (cfg : KaztronConfig)
    (s : ModelState) : Except ConfigError Value :=
  match serializeModelKeys schema cfg s (s.data.map Prod.fst) with
  | .error e => .error e
  | .ok pairs => .ok (.vdict pairs)

mutual

/-- Behavioural equality of two runtime values: structural identity, except
that timezone-aware datetimes compare by the instant they denote (as Python
`==` on aware `datetime` objects does).  For float objects, structural
equality is used — two NaN objects produced by an identity round trip are
behaviourally indistinguishable. -/
def valueEq : Value → Value → Bool
  | .vstr a, .vstr b => a == b
  | .vint a, .vint b => a == b
  | .vfloat a, .vfloat b => decide (a = b)
  | .vbool a, .vbool b => a == b
  | .vnull, .vnull => true
  | .vlist xs, .vlist ys => valueEqList xs ys
  | .vdict xs, .vdict ys => valueEqDict xs ys
  | .vdatetime w1 t1, .vdatetime w2 t2 =>
      (match t1, t2 with
       | some o1, some o2 => decide ((w1 - o1 : ℚ) = w2 - o2)
       | none, none => decide (w1 = w2)
       | _, _ => false)
  | .visostr w1 t1, .visostr w2 t2 => decide (w1 = w2) && t1 == t2
  | _, _ => false

/-- Pointwise behavioural equality of value lists. -/
def valueEqList : List Value → List Value → Bool
  | [], [] => true
  | x :: xs, y :: ys => valueEq x y && valueEqList xs ys
  | _, _ => false

/-- Pointwise behavioural equality of dict entry lists. -/
def valueEqDict : List (String × Value) → List (String × Value) → Bool
  | [], [] => true
  | (k1, x) :: xs, (k2, y) :: ys => k1 == k2 && valueEq x y && valueEqDict xs ys
  | _, _ => false

end

/-- The representable values of each catalog field type that satisfy its
declared constraints: the value domain documented for the field (string,
integer, float, bool, timezone-aware datetime, container of the inner
domain), restricted by the declared validation parameters exactly as the
field validators check them.  A special float value is within constraints
only when `allow_special` is set and the value satisfies the declared
bounds (under IEEE comparisons a NaN satisfies no bound). -/
def representable : FieldSpec → Value → Bool
  | .prim, v => isPrimitive v
  | .fstr minlen len validation, v =>
      (match v with
       | .vstr s =>
           stringValidLength minlen len s &&
             (match validation with
              | some p => p s
              | none => true)
       | _ => false)
  | .fint mn mx, v =>
      (match v with
       | .vint n => intValidRange mn mx n
       | _ => false)
  | .fcint mn mx, v =>
      (match v with
       | .vint n => intValidRange mn mx n
       | _ => false)
  | .ffloat mn mx sp, v =>
      (match v with
       | .vfloat f =>
           (match f with
            | .finite _ => true
            | _ => sp) && floatValidRange mn mx f
       | _ => false)
  | .fcfloat mn mx sp, v =>
      (match v with
       | .vfloat f =>
           (match f with
            | .finite _ => true
            | _ => sp) && floatValidRange mn mx f
       | _ => false)
  | .fbool, v =>
      (match v with
       | .vbool _ => true
       | _ => false)
  | .ftimestamp, v =>
      (match v with
       | .vdatetime _ (some _) => true
       | _ => false)
  | .fdatetime, v =>
      (match v with
       | .vdatetime _ (some _) => true
       | _ => false)
  | .flist inner min_len max_len _, v =>
      (match v with
       | .vlist xs =>
           listValidLength min_len max_len xs.length &&
             xs.all (representable inner)
       | _ => false)
  | .fdict inner _, v =>
      (match v with
       | .vdict xs => xs.all (fun p => representable inner p.2)
       | _ => false)

/-! ## Helper lemmas -/

theorem bool_not_eq_false {b : Bool} (h : ¬((!b) = true)) : b = true := by
  cases b <;> simp_all

theorem alGet_alDel_self {α : Type} (xs : List (String × α)) (k : String) :
    alGet (alDel xs k) k = none := by
  induction xs with
  | nil => rfl
  | cons x xs ih =>
      by_cases hx : x.1 = k
      · simpa [alDel, List.filter_cons, hx] using ih
      · simpa [alDel, List.filter_cons, hx, alGet] using ih

theorem getD_set_self {α : Type} (l : List α) (i : ℕ) (a d : α)
    (h : i < l.length) : (l.set i a).getD i d = a := by
  induction l generalizing i with
  | nil => simp at h
  | cons x xs ih =>
      cases i with
      | zero => simp [List.set, List.getD]
      | succ n =>
          simp only [List.set, List.getD_cons_succ]
          exact ih n (by simpa using h)

theorem cfg_notify_update_id (depth : ℕ) (cfg : KaztronConfig) :
    cfg_notify_update depth cfg = cfg := by
  induction depth with
  | zero => rfl
  | succ n ih => simpa [cfg_notify_update] using ih

/-! ## C8: write on a non-read-only root -/

/-- C8: on a non-read-only root, `write()` performs file output and clears the
dirty flag exactly when the dirty flag is set at the call; the resulting state
is clean, so an immediately repeated `write()` succeeds without any file
output. -/
theorem kaztron_c8_write_iff_dirty (c : KaztronConfig)
    (h : c.read_only = false) :
    ∃ c' : KaztronConfig, KaztronConfig.write c = .ok (c', c.is_dirty) ∧
      c'.is_dirty = false ∧ c'.read_only = false ∧ c'.data = c.data ∧
      KaztronConfig.write c' = .ok (c', false) := by
  cases hd : c.is_dirty with
  | false =>
      refine ⟨c, ?_, hd, h, rfl, ?_⟩ <;> simp [KaztronConfig.write, h, hd]
  | true =>
      refine ⟨{ c with is_dirty := false }, ?_, rfl, h, rfl, ?_⟩ <;>
        simp [KaztronConfig.write, h, hd]

/-- Witness for C8 at a concrete dirty, writable state. -/
theorem kaztron_c8_write_iff_dirty_witness :
    (KaztronConfig.mk [] true false).read_only = false ∧
      ∃ c' : KaztronConfig,
        KaztronConfig.write (KaztronConfig.mk [] true false) =
          .ok (c', (KaztronConfig.mk [] true false).is_dirty) ∧
        c'.is_dirty = false ∧ c'.read_only = false ∧
        c'.data = (KaztronConfig.mk [] true false).data ∧
        KaztronConfig.write c' = .ok (c', false) :=
  ⟨rfl, kaztron_c8_write_iff_dirty (KaztronConfig.mk [] true false) rfl⟩

/-! ## C10: get never modifies the raw data -/

/-- C10: `ConfigModel.get` never modifies the raw data mapping — whatever
path a successful read takes (conversion cache, raw value, or substituted
default for a missing optional key), the raw mapping of the returned state is
the one the call started from; in particular a substituted default is never
written into the raw tree. -/
theorem kaztron_c10_get_preserves_raw_data (schema : ModelSchema)
    (cfg : KaztronConfig) (s : ModelState) (k : String) (v : Value)
    (s' : ModelState) (h : modelGet schema cfg s k = .ok (v, s')) :
    s'.data = s.data := by
  simp only [modelGet, modelGetUncached] at h
  repeat' split at h
  all_goals first
  | (cases h; rfl)
  | cases h

/-- Witness for C10: a concrete strict model read from raw data. -/
theorem kaztron_c10_get_preserves_raw_data_witness :
    modelGet (ModelSchema.mk [("four", FieldDef.mk "four" (.fint none none) .vnull true)] true)
        (KaztronConfig.mk [] false false)
        (ModelState.mk [("four", .vint 4)] []) "four" =
      .ok (.vint 4, ModelState.mk [("four", .vint 4)] [("four", .vint 4)]) ∧
    (ModelState.mk [("four", .vint 4)] [("four", .vint 4)]).data =
      (ModelState.mk [("four", .vint 4)] []).data :=
  ⟨rfl,
   kaztron_c10_get_preserves_raw_data
     (ModelSchema.mk [("four", FieldDef.mk "four" (.fint none none) .vnull true)] true)
     (KaztronConfig.mk [] false false)
     (ModelState.mk [("four", .vint 4)] []) "four" (.vint 4)
     (ModelState.mk [("four", .vint 4)] [("four", .vint 4)]) rfl⟩

/-! ## C1: the dirty flag after a successful set -/

/-- C1 (code bug): a successful `set` on a node of a file-backed writable
tree does NOT leave the dirty flag of the root set.  The notification
bubbles to `ConfigRoot.cfg_notify_update`, which calls `KaztronConfig.notify`
— whose body is empty — so the flag is unchanged; here a declared integer
key of a clean writable root is set successfully and the dirty flag is still
false afterwards.  (The repository test suite expects `notify()` to mark the
configuration dirty: `test_config.py::test_notify` asserts that a `write()`
immediately after `notify()` performs file output.) -/
theorem kaztron_c1_set_leaves_dirty_flag_clear :
    modelSet (ModelSchema.mk [("four", FieldDef.mk "four" (.fint none none) .vnull true)] true)
        1 (KaztronConfig.mk [] false false)
        (ModelState.mk [("four", .vint 4)] []) "four" (.vint 5) =
      .ok (ModelState.mk [("four", .vint 5)] [], KaztronConfig.mk [] false false) ∧
    (KaztronConfig.mk [] false false).is_dirty = false ∧
    (∀ depth cfg, cfg_notify_update depth cfg = cfg) :=
  ⟨rfl, rfl, fun depth cfg => cfg_notify_update_id depth cfg⟩

/-! ## C6: the allow_special gate on floats -/

/-- C6 (code bug): with `allow_special` unset, `FloatField`/`ConstrainedFloatField`
`convert` and `serialize` reject the infinities — but NOT NaN: the check
`value == self.NAN` in `is_allowed_special` is always false under IEEE
semantics, so an unbounded NaN passes both `convert` and `serialize` even
though the docstring and the error message say NaN is not allowed.  With
`allow_special` set, the special values are accepted (no bounds declared). -/
theorem kaztron_c6_nan_escapes_special_check :
    FieldSpec.convert (.ffloat none none false) (.vfloat .inf) = .error .valueError ∧
    FieldSpec.convert (.ffloat none none false) (.vfloat .ninf) = .error .valueError ∧
    FieldSpec.serialize (.ffloat none none false) (.vfloat .inf) = .error .valueError ∧
    FieldSpec.convert (.ffloat none none false) (.vfloat .nan) = .ok (.vfloat .nan) ∧
    FieldSpec.serialize (.ffloat none none false) (.vfloat .nan) = .ok (.vfloat .nan) ∧
    FieldSpec.convert (.fcfloat none none false) (.vfloat .nan) = .ok (.vfloat .nan) ∧
    FieldSpec.serialize (.fcfloat none none false) (.vfloat .nan) = .ok (.vfloat .nan) ∧
    FieldSpec.convert (.ffloat none none true) (.vfloat .inf) = .ok (.vfloat .inf) ∧
    FieldSpec.convert (.ffloat none none true) (.vfloat .ninf) = .ok (.vfloat .ninf) ∧
    FieldSpec.convert (.ffloat none none true) (.vfloat .nan) = .ok (.vfloat .nan) :=
  ⟨rfl, rfl, rfl, rfl, rfl, rfl, rfl, rfl, rfl, rfl⟩

/-! ## C2: mutations under a read-only root -/

/-- C2 (amended): on a tree whose root is bound read-only, `ConfigModel.set`
raises ReadOnlyViolation before touching any data, and `get` is entirely
independent of the root state (it performs no read-only check), so reads
continue to work; but `ConfigList`/`ConfigDict` item mutations perform no
read-only check at all (see the counterexample). -/
theorem kaztron_c2_read_only_set_paths (schema : ModelSchema) (depth : ℕ)
    (cfg cfg2 : KaztronConfig) (s : ModelState) (k : String) (v : Value)
    (h : cfg.read_only = true) :
    modelSet schema depth cfg s k v = .error .readOnlyError ∧
    modelGet schema cfg s k = modelGet schema cfg2 s k := by
  constructor
  · simp [modelSet, h]
  · rfl

/-- Witness for C2 at a concrete read-only root. -/
theorem kaztron_c2_read_only_set_paths_witness :
    (KaztronConfig.mk [] false true).read_only = true ∧
    (modelSet (ModelSchema.mk [] true) 0 (KaztronConfig.mk [] false true)
        (ModelState.mk [] []) "a" .vnull = .error .readOnlyError ∧
      modelGet (ModelSchema.mk [] true) (KaztronConfig.mk [] false true)
          (ModelState.mk [] []) "a" =
        modelGet (ModelSchema.mk [] true) (KaztronConfig.mk [] false false)
          (ModelState.mk [] []) "a") :=
  ⟨rfl,
   kaztron_c2_read_only_set_paths (ModelSchema.mk [] true) 0
     (KaztronConfig.mk [] false true) (KaztronConfig.mk [] false false)
     (ModelState.mk [] []) "a" .vnull rfl⟩

/-- C2 counterexample: under a read-only root, a `ConfigList` item assignment
and a `ConfigDict` item assignment both succeed — no ReadOnlyViolation — and
the raw data IS changed (the list slot goes from `7` to `9`, the dict entry
likewise), refuting the claim that every mutation on a descendant node of a
read-only tree raises and leaves the raw data unchanged. -/
theorem kaztron_c2_counterexample :
    (KaztronConfig.mk [] false true).read_only = true ∧
    listSetitem (.fint none none) 1 (KaztronConfig.mk [] false true)
        (ConfigListState.mk [.vint 7] [.vnull] [false]) 0 (.vint 9) =
      .ok (ConfigListState.mk [.vint 9] [.vnull] [false],
           KaztronConfig.mk [] false true) ∧
    ([Value.vint 9] ≠ [Value.vint 7]) ∧
    dictSetitem (.fint none none) 1 (KaztronConfig.mk [] false true)
        (ConfigDictState.mk [("a", .vint 7)] []) "a" (.vint 9) =
      .ok (ConfigDictState.mk [("a", .vint 9)] [],
           KaztronConfig.mk [] false true) :=
  ⟨rfl, rfl, by simp, rfl⟩

/-! ## C7: reserved-prefix keys -/

/-- C7 (amended): reading a reserved-prefix key (not present in the
conversion cache) raises NameInvalid; but declaring such a key is silently
skipped by the metaclass (the field is simply not installed, no error), and
writing such a key is not name-checked at all — on a non-strict model the
`set` succeeds, writing the raw value. -/
theorem kaztron_c7_reserved_keys (k attr : String) (schema : ModelSchema)
    (cfg cfg2 : KaztronConfig) (s s2 : ModelState)
    (base : List (String × FieldDef)) (f g : DeclaredField)
    (fl : List (String × FieldDef)) (depth : ℕ) (n : ℤ)
    (hres : isReserved k = true)
    (hcache : alGet s.converted k = none)
    (hfname : f.name = none)
    (hgname : g.name = some k)
    (hro : cfg2.read_only = false)
    (hundecl : alGet fl k = none) :
    modelGet schema cfg s k = .error .nameError ∧
    collectFields base [(k, f)] = base ∧
    collectFields base [(attr, g)] = base ∧
    modelSet (ModelSchema.mk fl false) depth cfg2 s2 k (.vint n) =
      .ok (ModelState.mk (alSet s2.data k (.vint n)) (alDel s2.converted k),
           cfg_notify_update depth cfg2) := by
  refine ⟨?_, ?_, ?_, ?_⟩
  · simp [modelGet, hcache, modelGetUncached, hres]
  · simp [collectFields, hfname, hres]
  · simp [collectFields, hgname, hres]
  · simp [modelSet, hro, cfg_get_field, hundecl, defaultField,
      FieldSpec.serialize, isPrimitive]

/-- Witness for C7 at the concrete reserved key `"_x"`. -/
theorem kaztron_c7_reserved_keys_witness :
    isReserved "_x" = true ∧
    (modelGet (ModelSchema.mk [] true) (KaztronConfig.mk [] false false)
        (ModelState.mk [("_x", .vint 1)] []) "_x" = .error .nameError ∧
      collectFields [] [("_x", DeclaredField.mk none .prim .vnull false)] = [] ∧
      collectFields [] [("ok", DeclaredField.mk (some "_x") .prim .vnull false)] = [] ∧
      modelSet (ModelSchema.mk [] false) 1 (KaztronConfig.mk [] false false)
          (ModelState.mk [] []) "_x" (.vint 1) =
        .ok (ModelState.mk (alSet [] "_x" (.vint 1)) (alDel [] "_x"),
             cfg_notify_update 1 (KaztronConfig.mk [] false false))) :=
  ⟨rfl,
   kaztron_c7_reserved_keys "_x" "ok" (ModelSchema.mk [] true)
     (KaztronConfig.mk [] false false) (KaztronConfig.mk [] false false)
     (ModelState.mk [("_x", .vint 1)] []) (ModelState.mk [] []) []
     (DeclaredField.mk none .prim .vnull false)
     (DeclaredField.mk (some "_x") .prim .vnull false) [] 1 1
     rfl rfl rfl rfl rfl rfl⟩

/-- C7 counterexample: at the concrete reserved key `"_x"`, (a) declaring it
as a schema field is NOT rejected with an error — the metaclass silently
skips the member and returns an empty schema; (b) writing it via `set` on a
non-strict model succeeds outright; (c) writing it via `set` on a strict
model fails, but with KeyNotFound (the strict-keys check), not NameInvalid.
This refutes the claim that declare, read and write all raise NameInvalid. -/
theorem kaztron_c7_counterexample :
    collectFields [] [("_x", DeclaredField.mk none (.fint none none) .vnull false)] = [] ∧
    modelSet (ModelSchema.mk [] false) 1 (KaztronConfig.mk [] false false)
        (ModelState.mk [] []) "_x" (.vint 1) =
      .ok (ModelState.mk [("_x", .vint 1)] [], KaztronConfig.mk [] false false) ∧
    modelSet (ModelSchema.mk [] true) 1 (KaztronConfig.mk [] false false)
        (ModelState.mk [] []) "_x" (.vint 1) = .error .keyError :=
  ⟨rfl, rfl, rfl⟩

/-! ## C9: a write invalidates the conversion cache -/

/-- C9: for each node kind with a conversion cache, a write at a key/index
removes (rather than replaces) the cached converted entry — `ConfigModel.set`
and `ConfigDict.__setitem__` delete the cache entry, `ConfigList.__setitem__`
clears the validity flag — so the immediately following get at the same
key/index takes the cache-miss path and reconverts from the raw data. -/
theorem kaztron_c9_write_invalidates_cache (schema : ModelSchema)
    (inner : FieldSpec) (depth : ℕ) (cfg : KaztronConfig) :
    (∀ s k v s' cfg', modelSet schema depth cfg s k v = .ok (s', cfg') →
        alGet s'.converted k = none ∧
        modelGet schema cfg' s' k = modelGetUncached schema cfg' s' k) ∧
    (∀ st i v st' cfg', st.WF →
        listSetitem inner depth cfg st i v = .ok (st', cfg') →
        st'.convert_map.getD i true = false ∧
        listGetitem inner st' i = listGetitemUncached inner st' i) ∧
    (∀ st k v st' cfg', dictSetitem inner depth cfg st k v = .ok (st', cfg') →
        alGet st'.converted k = none ∧
        dictGetitem inner st' k = dictGetitemUncached inner st' k) := by
  refine ⟨?_, ?_, ?_⟩
  · intro s k v s' cfg' h
    simp only [modelSet] at h
    repeat' split at h
    all_goals cases h
    exact ⟨alGet_alDel_self s.converted k,
           by simp [modelGet, alGet_alDel_self]⟩
  · intro st i v st' cfg' hwf h
    obtain ⟨_, hm⟩ := hwf
    simp only [listSetitem] at h
    repeat' split at h
    all_goals cases h
    rename_i hser hi
    have hi' : i < st.convert_map.length := by omega
    have hget : (st.convert_map.set i false).getD i false = false :=
      getD_set_self _ _ _ _ (by simpa using hi')
    have hget' : (st.convert_map.set i false).getD i true = false :=
      getD_set_self _ _ _ _ (by simpa using hi')
    refine ⟨hget', ?_⟩
    simp [listGetitem, hget, hi']
  · intro st k v st' cfg' h
    simp only [dictSetitem] at h
    repeat' split at h
    all_goals cases h
    exact ⟨alGet_alDel_self st.converted k,
           by simp [dictGetitem, alGet_alDel_self]⟩

/-- Witness for C9 at concrete writes on each node kind. -/
theorem kaztron_c9_write_invalidates_cache_witness :
    (alGet (ModelState.mk (alSet [] "a" (.vint 1)) (alDel [("a", Value.vint 0)] "a")).converted "a" = none ∧
      modelGet (ModelSchema.mk [] false) (cfg_notify_update 0 (KaztronConfig.mk [] false false))
          (ModelState.mk (alSet [] "a" (.vint 1)) (alDel [("a", Value.vint 0)] "a")) "a" =
        modelGetUncached (ModelSchema.mk [] false) (cfg_notify_update 0 (KaztronConfig.mk [] false false))
          (ModelState.mk (alSet [] "a" (.vint 1)) (alDel [("a", Value.vint 0)] "a")) "a") ∧
    ((ConfigListState.mk [.vint 9] [.vint 7] [false]).convert_map.getD 0 true = false ∧
      listGetitem (.fint none none) (ConfigListState.mk [.vint 9] [.vint 7] [false]) 0 =
        listGetitemUncached (.fint none none) (ConfigListState.mk [.vint 9] [.vint 7] [false]) 0) ∧
    (alGet (ConfigDictState.mk (alSet [("a", Value.vint 7)] "a" (.vint 9)) (alDel [("a", Value.vint 7)] "a")).converted "a" = none ∧
      dictGetitem (.fint none none)
          (ConfigDictState.mk (alSet [("a", Value.vint 7)] "a" (.vint 9)) (alDel [("a", Value.vint 7)] "a")) "a" =
        dictGetitemUncached (.fint none none)
          (ConfigDictState.mk (alSet [("a", Value.vint 7)] "a" (.vint 9)) (alDel [("a", Value.vint 7)] "a")) "a") :=
  ⟨(kaztron_c9_write_invalidates_cache (ModelSchema.mk [] false) (.fint none none) 0
      (KaztronConfig.mk [] false false)).1
    (ModelState.mk [] [("a", Value.vint 0)]) "a" (.vint 1) _ _ rfl,
   (kaztron_c9_write_invalidates_cache (ModelSchema.mk [] false) (.fint none none) 0
      (KaztronConfig.mk [] false false)).2.1
    (ConfigListState.mk [.vint 7] [.vint 7] [true]) 0 (.vint 9) _ _ ⟨rfl, rfl⟩ rfl,
   (kaztron_c9_write_invalidates_cache (ModelSchema.mk [] false) (.fint none none) 0
      (KaztronConfig.mk [] false false)).2.2
    (ConfigDictState.mk [("a", Value.vint 7)] [("a", Value.vint 7)]) "a" (.vint 9) _ _ rfl⟩

/-! ## C4: list length bounds -/

/-- C4 (amended): binding raw data to a `ConfigList` validates the declared
length window (with a falsy `max_len` disabling the upper check) and a delete
that would drop the length below a truthy `min_len` is refused, so the lower
bound is an invariant of delete; but `insert` performs NO `max_len` check, so
the upper bound is not an invariant (see the counterexample). -/
theorem kaztron_c4_list_length_bounds (inner : FieldSpec) (min_len : ℕ)
    (max_len : Option ℕ) (lazy : Bool) (depth : ℕ) (cfg : KaztronConfig) :
    (∀ data st, list_cfg_set_data inner min_len max_len lazy data = .ok st →
        st.serialized_data = data ∧ min_len ≤ data.length ∧
        ∀ m, max_len = some m → m ≠ 0 → data.length ≤ m) ∧
    (∀ st i, min_len ≠ 0 → st.serialized_data.length ≤ min_len →
        listDelitem min_len depth cfg st i = .error .indexError) ∧
    (∀ st i st' cfg', min_len ≤ st.serialized_data.length →
        listDelitem min_len depth cfg st i = .ok (st', cfg') →
        st'.serialized_data.length = st.serialized_data.length - 1 ∧
        min_len ≤ st'.serialized_data.length) := by
  refine ⟨?_, ?_, ?_⟩
  · intro data st h
    simp only [list_cfg_set_data] at h
    split at h
    · cases h
    · rename_i hguard
      have hg := bool_not_eq_false hguard
      rw [Bool.and_eq_true] at hg
      obtain ⟨hmax, hmin⟩ := hg
      have hdata : st.serialized_data = data := by
        repeat' split at h
        all_goals cases h
        all_goals rfl
      refine ⟨hdata, by simpa using hmin, ?_⟩
      intro m hm hm0
      rw [hm] at hmax
      simp only [hm0, if_false] at hmax
      simpa using hmax
  · intro st i h0 hlen
    simp [listDelitem, h0, hlen]
  · intro st i st' cfg' hmin h
    simp only [listDelitem] at h
    repeat' split at h
    all_goals cases h
    rename_i hguard hi
    have hlen := List.length_eraseIdx_add_one hi
    have hg : min_len = 0 ∨ min_len < st.serialized_data.length := by
      rcases Nat.eq_zero_or_pos min_len with h0 | h0
      · exact Or.inl h0
      · right
        by_contra hle
        push_neg at hle
        apply hguard
        simp only [Bool.and_eq_true, bne_iff_ne, ne_eq, decide_eq_true_eq]
        exact ⟨by omega, by omega⟩
    constructor
    · dsimp only
      omega
    · rcases hg with h0 | h0 <;> dsimp only <;> omega

/-- Witness for C4: a concrete bind within bounds and a concrete refused and
a concrete allowed delete. -/
theorem kaztron_c4_list_length_bounds_witness :
    ((ConfigListState.mk [.vint 0] [.vnull] [false]).serialized_data = [.vint 0] ∧
      1 ≤ ([Value.vint 0]).length ∧
      ∀ m, (some 2 : Option ℕ) = some m → m ≠ 0 → ([Value.vint 0]).length ≤ m) ∧
    listDelitem 1 0 (KaztronConfig.mk [] false false)
        (ConfigListState.mk [.vint 0] [.vnull] [false]) 0 = .error .indexError ∧
    (((ConfigListState.mk [.vint 1] [.vnull] [false]).serialized_data).length =
        ([Value.vint 1, Value.vint 2]).length - 1 ∧
      1 ≤ ((ConfigListState.mk [.vint 1] [.vnull] [false]).serialized_data).length) := by
  refine ⟨?_, ?_, ?_⟩
  · exact (kaztron_c4_list_length_bounds (.fint none none) 1 (some 2) true 0
      (KaztronConfig.mk [] false false)).1 [.vint 0]
      (ConfigListState.mk [.vint 0] [.vnull] [false]) rfl
  · exact (kaztron_c4_list_length_bounds (.fint none none) 1 (some 2) true 0
      (KaztronConfig.mk [] false false)).2.1
      (ConfigListState.mk [.vint 0] [.vnull] [false]) 0 (by decide) (by decide)
  · exact (kaztron_c4_list_length_bounds (.fint none none) 1 (some 2) true 0
      (KaztronConfig.mk [] false false)).2.2
      (ConfigListState.mk [.vint 1, .vint 2] [.vnull, .vnull] [false, false]) 1
      (ConfigListState.mk [.vint 1] [.vnull] [false])
      (KaztronConfig.mk [] false false) (by decide) rfl

/-! ## C5: field round trips -/

@[simp]
theorem kz_bind_ok {α β : Type} (a : α) (f : α → Except ConfigError β) :
    (Except.ok a : Except ConfigError α) >>= f = f a := rfl

@[simp]
theorem kz_bind_error {α β : Type} (e : ConfigError)
    (f : α → Except ConfigError β) :
    (Except.error e : Except ConfigError α) >>= f = Except.error e := rfl

mutual

theorem valueEq_refl : (v : Value) → valueEq v v = true
  | .vstr _ => by simp [valueEq]
  | .vint _ => by simp [valueEq]
  | .vfloat _ => by simp [valueEq]
  | .vbool _ => by simp [valueEq]
  | .vnull => by simp [valueEq]
  | .vlist xs => by simpa [valueEq] using valueEqList_refl xs
  | .vdict xs => by simpa [valueEq] using valueEqDict_refl xs
  | .vdatetime _ t => by cases t <;> simp [valueEq]
  | .visostr _ _ => by simp [valueEq]

theorem valueEqList_refl : (xs : List Value) → valueEqList xs xs = true
  | [] => rfl
  | x :: xs => by simp [valueEqList, valueEq_refl x, valueEqList_refl xs]

theorem valueEqDict_refl : (xs : List (String × Value)) →
    valueEqDict xs xs = true
  | [] => rfl
  | (_, x) :: xs => by simp [valueEqDict, valueEq_refl x, valueEqDict_refl xs]

end

theorem feq_eq {a b : PyFloat} (h : feq a b = true) : a = b := by
  cases a <;> cases b <;> simp_all [feq]

theorem pymax_of_le {a f : PyFloat} (h : fle a f = true) : pymax a f = f := by
  unfold pymax fgt
  by_cases hl : flt a f = true
  · simp [hl]
  · have : feq a f = true := by
      unfold fle at h
      rcases Bool.or_eq_true _ _ |>.mp h with h' | h'
      · exact absurd h' hl
      · exact h'
    simp [hl, feq_eq this]

theorem pymin_of_le {b f : PyFloat} (h : fle f b = true) : pymin b f = f := by
  unfold pymin
  by_cases hl : flt f b = true
  · simp [hl]
  · have : feq f b = true := by
      unfold fle at h
      rcases Bool.or_eq_true _ _ |>.mp h with h' | h'
      · exact absurd h' hl
      · exact h'
    simp [hl, feq_eq this]

theorem floatClamp_of_valid {mn mx : Option PyFloat} {f : PyFloat}
    (h : floatValidRange mn mx f = true) : floatClamp mn mx f = f := by
  unfold floatValidRange at h
  rw [Bool.and_eq_true] at h
  obtain ⟨hmn, hmx⟩ := h
  cases mn with
  | none =>
      cases mx with
      | none => rfl
      | some b =>
          have hb : fle f b = true := by simpa using hmx
          show pymin b f = f
          exact pymin_of_le hb
  | some a =>
      have ha : fle a f = true := by simpa using hmn
      cases mx with
      | none =>
          show pymax a f = f
          exact pymax_of_le ha
      | some b =>
          have hb : fle f b = true := by simpa using hmx
          show pymin b (pymax a f) = f
          rw [pymax_of_le ha]
          exact pymin_of_le hb

theorem intClamp_of_valid {mn mx : Option ℤ} {n : ℤ}
    (h : intValidRange mn mx n = true) : intClamp mn mx n = n := by
  unfold intValidRange at h
  rw [Bool.and_eq_true] at h
  obtain ⟨hmn, hmx⟩ := h
  cases mn with
  | none =>
      cases mx with
      | none => rfl
      | some b =>
          have hb : n ≤ b := by simpa using hmx
          show min b n = n
          omega
  | some a =>
      have ha : a ≤ n := by simpa using hmn
      cases mx with
      | none =>
          show max a n = n
          omega
      | some b =>
          have hb : n ≤ b := by simpa using hmx
          show min b (max a n) = n
          omega

theorem is_allowed_special_finite (sp : Bool) (q : ℚ) :
    is_allowed_special sp (.finite q) = true := by
  simp [is_allowed_special, feq]

theorem roundtripExceptMap (inner : FieldSpec)
    (ih : ∀ v, representable inner v = true →
        ∃ w u, FieldSpec.serialize inner v = .ok w ∧
          FieldSpec.convert inner w = .ok u ∧ valueEq u v = true) :
    ∀ xs : List Value, xs.all (representable inner) = true →
      ∃ ws us, exceptMap (FieldSpec.serialize inner) xs = .ok ws ∧
        ws.length = xs.length ∧
        exceptMap (FieldSpec.convert inner) ws = .ok us ∧
        valueEqList us xs = true := by
  intro xs
  induction xs with
  | nil => exact fun _ => ⟨[], [], rfl, rfl, rfl, rfl⟩
  | cons x xs ihl =>
      intro hall
      rw [List.all_cons, Bool.and_eq_true] at hall
      obtain ⟨hx, hxs⟩ := hall
      obtain ⟨ws, us, hser, hlen, hconv, heq⟩ := ihl hxs
      obtain ⟨w, u, hserx, hconvx, heqx⟩ := ih x hx
      exact ⟨w :: ws, u :: us, by simp [exceptMap, hserx, hser],
             by simp [hlen], by simp [exceptMap, hconvx, hconv],
             by simp [valueEqList, heqx, heq]⟩

theorem roundtripExceptMapVals (inner : FieldSpec)
    (ih : ∀ v, representable inner v = true →
        ∃ w u, FieldSpec.serialize inner v = .ok w ∧
          FieldSpec.convert inner w = .ok u ∧ valueEq u v = true) :
    ∀ xs : List (String × Value),
      xs.all (fun p => representable inner p.2) = true →
      ∃ ws us, exceptMapVals (FieldSpec.serialize inner) xs = .ok ws ∧
        exceptMapVals (FieldSpec.convert inner) ws = .ok us ∧
        valueEqDict us xs = true := by
  intro xs
  induction xs with
  | nil => exact fun _ => ⟨[], [], rfl, rfl, rfl⟩
  | cons p xs ihl =>
      intro hall
      rw [List.all_cons, Bool.and_eq_true] at hall
      obtain ⟨hx, hxs⟩ := hall
      obtain ⟨ws, us, hser, hconv, heq⟩ := ihl hxs
      obtain ⟨w, u, hserx, hconvx, heqx⟩ := ih p.2 hx
      exact ⟨(p.1, w) :: ws, (p.1, u) :: us,
             by cases p; simp [exceptMapVals, hserx, hser],
             by simp [exceptMapVals, hconvx, hconv],
             by simp [valueEqDict, heqx, heq]⟩

/-- C5 (amended): for every Field type of the catalog OTHER than
`ConfigModelField`, and every representable value `v` within the declared
constraints of the field, `convert(serialize(v))` succeeds and is
behaviourally equal to `v`.  (For `ConfigModelField` the round trip can
fail, because its `serialize` emits converted member values — see the
counterexample.) -/
theorem kaztron_c5_roundtrip (fs : FieldSpec) (v : Value)
    (h : representable fs v = true) :
    ∃ w u, FieldSpec.serialize fs v = .ok w ∧ FieldSpec.convert fs w = .ok u ∧
      valueEq u v = true := by
  induction fs generalizing v with
  | prim =>
      simp only [representable] at h
      exact ⟨v, v, by simp [FieldSpec.serialize, h], rfl, valueEq_refl v⟩
  | fstr minlen len validation =>
      cases v
      case vstr s =>
        simp only [representable] at h
        rw [Bool.and_eq_true] at h
        obtain ⟨hlen, hval⟩ := h
        have hcheck : stringFieldCheck minlen len validation (.vstr s) =
            .ok (.vstr s) := by
          cases validation with
          | none => simp [stringFieldCheck, hlen]
          | some p =>
              have hp : p s = true := by simpa using hval
              simp [stringFieldCheck, hlen, hp]
        exact ⟨.vstr s, .vstr s, by simpa [FieldSpec.serialize] using hcheck,
               by simpa [FieldSpec.convert] using hcheck, by simp [valueEq]⟩
      all_goals simp [representable] at h
  | fint mn mx =>
      cases v
      case vint n =>
        simp only [representable] at h
        exact ⟨.vint n, .vint n,
               by simp [FieldSpec.serialize, pyInt, h],
               by simp [FieldSpec.convert, pyInt, h], by simp [valueEq]⟩
      all_goals simp [representable] at h
  | fcint mn mx =>
      cases v
      case vint n =>
        simp only [representable] at h
        exact ⟨.vint n, .vint n,
               by simp [FieldSpec.serialize, pyInt, intClamp_of_valid h],
               by simp [FieldSpec.convert, pyInt, intClamp_of_valid h],
               by simp [valueEq]⟩
      all_goals simp [representable] at h
  | ffloat mn mx sp =>
      cases v
      case vfloat f =>
        simp only [representable] at h
        rw [Bool.and_eq_true] at h
        obtain ⟨hsp, hrange⟩ := h
        have hallow : is_allowed_special sp f = true := by
          cases f with
          | finite q => exact is_allowed_special_finite sp q
          | inf => simp_all [is_allowed_special, feq]
          | ninf => simp_all [is_allowed_special, feq]
          | nan => simp_all [is_allowed_special, feq]
        exact ⟨.vfloat f, .vfloat f,
               by simp [FieldSpec.serialize, pyFloatOf, hallow, hrange],
               by simp [FieldSpec.convert, pyFloatOf, hallow, hrange],
               by simp [valueEq]⟩
      all_goals simp [representable] at h
  | fcfloat mn mx sp =>
      cases v
      case vfloat f =>
        simp only [representable] at h
        rw [Bool.and_eq_true] at h
        obtain ⟨hsp, hrange⟩ := h
        have hallow : is_allowed_special sp f = true := by
          cases f with
          | finite q => exact is_allowed_special_finite sp q
          | inf => simp_all [is_allowed_special, feq]
          | ninf => simp_all [is_allowed_special, feq]
          | nan => simp_all [is_allowed_special, feq]
        exact ⟨.vfloat f, .vfloat f,
               by simp [FieldSpec.serialize, pyFloatOf, hallow,
                 floatClamp_of_valid hrange],
               by simp [FieldSpec.convert, pyFloatOf, hallow,
                 floatClamp_of_valid hrange],
               by simp [valueEq]⟩
      all_goals simp [representable] at h
  | fbool =>
      cases v
      case vbool b =>
        exact ⟨.vbool b, .vbool b,
               by simp [FieldSpec.serialize, booleanFieldConvert],
               by simp [FieldSpec.convert, booleanFieldConvert],
               by simp [valueEq]⟩
      all_goals simp [representable] at h
  | ftimestamp =>
      cases v
      case vdatetime w tz =>
        cases tz with
        | none => simp [representable] at h
        | some o =>
            refine ⟨.vfloat (.finite (w - o)), .vdatetime (w - o) (some 0),
              by simp [FieldSpec.serialize], by simp [FieldSpec.convert], ?_⟩
            simp [valueEq]
      all_goals simp [representable] at h
  | fdatetime =>
      cases v
      case vdatetime w tz =>
        cases tz with
        | none => simp [representable] at h
        | some o =>
            exact ⟨.visostr w (some o), .vdatetime w (some o),
                   by simp [FieldSpec.serialize], by simp [FieldSpec.convert],
                   by simp [valueEq]⟩
      all_goals simp [representable] at h
  | flist inner mn mx lz ih =>
      cases v
      case vlist xs =>
        simp only [representable] at h
        rw [Bool.and_eq_true] at h
        obtain ⟨hlen, hall⟩ := h
        obtain ⟨ws, us, hser, hlenws, hconv, heq⟩ :=
          roundtripExceptMap inner ih xs hall
        refine ⟨.vlist ws, .vlist us, ?_, ?_, ?_⟩
        · simp [FieldSpec.serialize, hlen, hser]
        · simp [FieldSpec.convert, hlenws, hlen, hconv]
        · simpa [valueEq] using heq
      all_goals simp [representable] at h
  | fdict inner lz ih =>
      cases v
      case vdict xs =>
        simp only [representable] at h
        obtain ⟨ws, us, hser, hconv, heq⟩ :=
          roundtripExceptMapVals inner ih xs h
        refine ⟨.vdict ws, .vdict us, ?_, ?_, ?_⟩
        · simp [FieldSpec.serialize, hser]
        · simp [FieldSpec.convert, hconv]
        · simpa [valueEq] using heq
      all_goals simp [representable] at h

/-- Witness for C5: the round trip at a concrete bounded-list-of-datetimes
field and value. -/
theorem kaztron_c5_roundtrip_witness :
    representable (.flist .fdatetime 1 (some 3) true)
        (.vlist [.vdatetime 60 (some 3600)]) = true ∧
    ∃ w u, FieldSpec.serialize (.flist .fdatetime 1 (some 3) true)
        (.vlist [.vdatetime 60 (some 3600)]) = .ok w ∧
      FieldSpec.convert (.flist .fdatetime 1 (some 3) true) w = .ok u ∧
      valueEq u (.vlist [.vdatetime 60 (some 3600)]) = true :=
  ⟨by decide,
   kaztron_c5_roundtrip (.flist .fdatetime 1 (some 3) true)
     (.vlist [.vdatetime 60 (some 3600)]) (by decide)⟩

/-- Schema of the concrete model used in the C5 counterexample: one declared
member `d` holding a `DatetimeField`. -/
def c5Schema : ModelSchema :=
  ModelSchema.mk [("d", FieldDef.mk "d" .fdatetime .vnull true)] true

/-- A valid bound model: its raw data holds ISO timestamp text under `d`. -/
def c5Model : ModelState := ModelState.mk [("d", .visostr 0 (some 0))] []

/-- A clean writable root configuration. -/
def c5Cfg : KaztronConfig := KaztronConfig.mk [] false false

/-- C5 counterexample: for the catalog Field type `ConfigModelField`, the
round trip fails.  `serialize` of a valid model whose `d` member holds ISO
timestamp text emits the CONVERTED member (`{d: <datetime object>}`, not the
raw text); `convert` of that dict binds a model whose raw data holds a
datetime object, so reading `d` on the round-tripped model raises a
conversion error (`fromisoformat` refuses a non-string), while `d` on the
original model reads fine — the two are not behaviourally equal, refuting
the round-trip claim for every catalog Field type. -/
theorem kaztron_c5_counterexample :
    configModelFieldSerialize c5Schema c5Cfg c5Model =
      .ok (.vdict [("d", .vdatetime 0 (some 0))]) ∧
    configModelFieldConvert (.vdict [("d", .vdatetime 0 (some 0))]) =
      .ok (ModelState.mk [("d", .vdatetime 0 (some 0))] []) ∧
    modelGet c5Schema c5Cfg (ModelState.mk [("d", .vdatetime 0 (some 0))] [])
        "d" = .error .converterError ∧
    modelGet c5Schema c5Cfg c5Model "d" =
      .ok (.vdatetime 0 (some 0),
           ModelState.mk [("d", .visostr 0 (some 0))]
             [("d", .vdatetime 0 (some 0))]) :=
  ⟨rfl, rfl, rfl, rfl⟩

/-! ## C3: runtime-attribute resolution order -/

/-- Left-biased choice on options, used to state lookup precedence. -/
def oor {α : Type} (x y : Option α) : Option α :=
  match x with
  | some v => some v
  | none => y

theorem oor_assoc {α : Type} (x y z : Option α) :
    oor (oor x y) z = oor x (oor y z) := by
  cases x <;> rfl

theorem alGet_append {α : Type} (xs ys : List (String × α)) (k : String) :
    alGet (xs ++ ys) k = oor (alGet xs k) (alGet ys k) := by
  induction xs with
  | nil => rfl
  | cons x xs ih =>
      by_cases hx : x.1 = k
      · simp [alGet, hx, oor]
      · simpa [alGet, hx] using ih

theorem firstSome_cons {α : Type} (x : Option α) (l : List (Option α)) :
    firstSome (x :: l) = oor x (firstSome l) := by
  cases x <;> rfl

theorem firstSome_append {α : Type} (l1 l2 : List (Option α)) :
    firstSome (l1 ++ l2) = oor (firstSome l1) (firstSome l2) := by
  induction l1 with
  | nil => rfl
  | cons x l1 ih =>
      rw [List.cons_append, firstSome_cons, ih, firstSome_cons, oor_assoc]

theorem runtime_fold_lookup {α : Type} (node : NodeTables α) (a : String)
    (ms : List FieldTag) (acc : List (String × α)) :
    alGet (ms.foldl (fun acc mt =>
        match node mt with
        | some tbl => dictUpdate acc tbl
        | none => acc) acc) a =
      oor (firstSome (ms.reverse.map
            (fun mt => (node mt).bind (fun tbl => alGet tbl a))))
          (alGet acc a) := by
  induction ms generalizing acc with
  | nil => rfl
  | cons m ms ih =>
      rw [List.foldl_cons, ih, List.reverse_cons, List.map_append,
        firstSome_append, oor_assoc]
      congr 1
      cases hm : node m with
      | none =>
          simp only [List.map_cons, List.map_nil, hm]
          rfl
      | some tbl =>
          simp only [hm, dictUpdate, alGet_append]
          have hfs : firstSome (List.map
              (fun mt => (node mt).bind (fun tbl => alGet tbl a)) [m]) =
              alGet tbl a := by
            simp only [List.map_cons, List.map_nil, hm]
            show firstSome [alGet tbl a] = alGet tbl a
            cases alGet tbl a <;> rfl
          rw [hfs]

/-- C3 (amended): resolving the runtime attributes for a Field subtype walks
the node chain from the current node to the root with the nearer node always
winning; but within one node, among the tables registered for the classes in
the MRO of the requested subtype, the winning entry for an attribute comes
from the LAST such class in the MRO — that is, an entry registered for an
ancestor type overrides an entry registered for the specific subtype at the
same node (the merge loop updates the accumulator in MRO order, later
updates winning). -/
theorem kaztron_c3_runtime_attribute_resolution {α : Type}
    (chain : List (NodeTables α)) (t : FieldTag) (a : String) :
    alGet (cfg_get_runtime_attributes chain t) a =
      firstSome (chain.map (fun node => nodeRuntimeLookup node t a)) := by
  induction chain with
  | nil => rfl
  | cons node parents ih =>
      rw [List.map_cons, firstSome_cons, ← ih]
      exact runtime_fold_lookup node a (FieldTag.mro t) _

/-- The runtime-attribute table of a single root node on which the attribute
`"resolver"` is registered as `1` for the base class `Field` and as `2` for
the subtype `IntegerField`. -/
def c3Root : NodeTables ℕ :=
  cfg_set_runtime_attributes
    (cfg_set_runtime_attributes (fun _ => none) .fieldBase [("resolver", 1)])
    .integerField [("resolver", 2)]

/-- C3 counterexample: with `resolver = 1` registered for the ancestor type
`Field` and `resolver = 2` registered for the specific subtype
`IntegerField` on the same node, resolving the attributes of `IntegerField`
yields the ANCESTOR value `1`, not the subtype value `2` — refuting the
claim that an entry registered for the specific subtype wins over an entry
registered for an ancestor type. -/
theorem kaztron_c3_counterexample :
    c3Root .integerField = some [("resolver", 2)] ∧
    c3Root .fieldBase = some [("resolver", 1)] ∧
    alGet (cfg_get_runtime_attributes [c3Root] .integerField) "resolver" =
      some 1 ∧
    alGet (cfg_get_runtime_attributes [c3Root] .integerField) "resolver" ≠
      some 2 :=
  ⟨rfl, rfl, rfl, by decide⟩

/-- C4 counterexample: a list bound with `max_len = 1` accepts an `insert`
that takes its length to `2 > max_len` — no error is raised, refuting the
claim that every insert that would exceed `max_len` is refused and that
`length ≤ max_len` is an invariant. -/
theorem kaztron_c4_counterexample :
    list_cfg_set_data (.fint none none) 0 (some 1) true [.vint 0] =
      .ok (ConfigListState.mk [.vint 0] [.vnull] [false]) ∧
    listInsert (.fint none none) 1 (KaztronConfig.mk [] false false)
        (ConfigListState.mk [.vint 0] [.vnull] [false]) 1 (.vint 1) =
      .ok (ConfigListState.mk [.vint 0, .vint 1] [.vnull, .vnull] [false, false],
           KaztronConfig.mk [] false false) ∧
    ¬(2 ≤ 1) :=
  ⟨rfl, rfl, by decide⟩

end KazCfg
